import Mathlib

/-!
Shallow embedding of `src/data_analyzer.py` (class `DataAnalyzer`): the
chunked CSV reader, the sample profiler, the dtype optimizer, the chunked
table loader and the query executor, together with proofs of the spec's
claims about them.

Modelling conventions:
* a pandas cell is either text or a (64-bit) integer; machine integers are
  modelled as `Int` (the narrowing checks in `optimize_dtypes` compare
  against the explicit signed bounds that appear literally in the source);
* a `DataFrame` is a row count (the length of the pandas index) together
  with named, typed columns;
* fallible operations return `Except String`; the string is the Python
  exception re-raised by the source's `try/except` blocks;
* the relational store is a map from table names to row lists; `to_sql`
  implements pandas' `fail` / `replace` / `append` semantics;
* float arithmetic in `analyze_sample` is modelled over `ℚ` (the claims
  about it concern which quantities enter the formula, not rounding).
-/

namespace DataAnalyzer

/-- A single CSV / DataFrame cell: text or an integer. -/
inductive Cell
  | str (s : String)
  | int (n : Int)
deriving DecidableEq, Repr

/-- A data row: one cell per column, in the file's column order. -/
abbrev Row := List Cell

/-- `true` exactly on integer cells (pandas would infer `int64`). -/
def Cell.isInt : Cell → Bool
  | .str _ => false
  | .int _ => true

/-- Integer payload of a cell (`0` on text, never used on text cells). -/
def Cell.toInt : Cell → Int
  | .str _ => 0
  | .int n => n

/-- Storage width of a pandas integer column. -/
inductive IntWidth
  | i8
  | i16
  | i32
  | i64
deriving DecidableEq, Repr

/-- Column payload: a text column (`object`, or `category` after conversion)
or an integer column of some storage width. -/
inductive ColData
  | obj (isCategory : Bool) (vals : List Cell)
  | intC (w : IntWidth) (vals : List Int)
deriving DecidableEq, Repr

/-- A named, typed column. -/
structure Column where
  name : String
  data : ColData
deriving DecidableEq, Repr

/-- The cells of a column, as logical values (width is storage metadata). -/
def Column.cells : Column → List Cell
  | ⟨_, .obj _ vs⟩ => vs
  | ⟨_, .intC _ vs⟩ => vs.map Cell.int

/-- An in-memory pandas DataFrame: `nrows` is the length of the index
(`len(df)` in the source); each column's value list has length `nrows`
in a well-formed frame. -/
structure DataFrame where
  nrows : Nat
  cols : List Column
deriving DecidableEq, Repr

/-- Well-formedness: every column holds exactly `nrows` values. -/
def DataFrame.WF (df : DataFrame) : Prop :=
  ∀ c ∈ df.cols, c.cells.length = df.nrows

/-- Row `i` of a frame, reassembled across the columns. -/
def DataFrame.row (df : DataFrame) (i : Nat) : Row :=
  df.cols.map (fun c => c.cells.getD i (Cell.str ""))

/-- The frame's rows in order (the row-major view written by `to_sql`). -/
def DataFrame.toRows (df : DataFrame) : List Row :=
  (List.range df.nrows).map df.row

/-- Structural worker for `chunksOf`: `fuel` bounds the number of chunks
still to peel (the list's length always suffices, since each step
consumes at least one element). -/
def chunksOfFuel (n : Nat) : Nat → List α → List (List α)
  | _, [] => []
  | 0, _ :: _ => []
  | fuel + 1, x :: xs =>
    (x :: xs.take (n - 1)) :: chunksOfFuel n fuel (xs.drop (n - 1))

/-- Splitting a list into consecutive chunks of size `n` (the last chunk
may be shorter): the sequence `pd.read_csv(..., chunksize=n)` yields on a
file with at least one data row.  Only used with `0 < n` (pandas rejects
`chunksize < 1`). -/
def chunksOf (n : Nat) (l : List α) : List (List α) :=
  chunksOfFuel n l.length l

theorem chunksOfFuel_congr (n : Nat) :
    ∀ (fuel fuel' : Nat) (l : List α), l.length ≤ fuel → l.length ≤ fuel' →
      chunksOfFuel n fuel l = chunksOfFuel n fuel' l
  | fuel, fuel', [] => by
    intro h1 h2
    cases fuel <;> cases fuel' <;> rfl
  | fuel, fuel', x :: xs => by
    intro h1 h2
    cases fuel with
    | zero => simp at h1
    | succ f =>
      cases fuel' with
      | zero => simp at h2
      | succ f' =>
        simp only [chunksOfFuel]
        have hd : (xs.drop (n - 1)).length = xs.length - (n - 1) := by simp
        simp only [List.length_cons] at h1 h2
        rw [chunksOfFuel_congr n f f' (xs.drop (n - 1)) (by omega) (by omega)]
termination_by fuel _ _ => fuel

theorem chunksOf_nil (n : Nat) : chunksOf n ([] : List α) = [] := rfl

theorem chunksOf_cons (n : Nat) (x : α) (xs : List α) :
    chunksOf n (x :: xs) = (x :: xs.take (n - 1)) :: chunksOf n (xs.drop (n - 1)) := by
  unfold chunksOf
  simp only [List.length_cons, chunksOfFuel]
  congr 1
  apply chunksOfFuel_congr
  · have hd : (xs.drop (n - 1)).length = xs.length - (n - 1) := by simp
    omega
  · exact le_refl _

/-- Concatenating the chunks recovers the original list. -/
theorem chunksOf_flatten (n : Nat) (hn : 0 < n) :
    ∀ l : List α, (chunksOf n l).flatten = l
  | [] => by simp [chunksOf_nil]
  | x :: xs => by
    rw [chunksOf_cons, List.flatten_cons, chunksOf_flatten n hn (xs.drop (n - 1))]
    simp [List.take_append_drop]
termination_by l => l.length
decreasing_by
  simp only [List.length_drop, List.length_cons]
  omega

/-- Every chunk is nonempty and no chunk exceeds the chunk size. -/
theorem chunksOf_mem_length (n : Nat) (hn : 0 < n) :
    ∀ l : List α, ∀ c ∈ chunksOf n l, 1 ≤ c.length ∧ c.length ≤ n
  | [] => by simp [chunksOf_nil]
  | x :: xs => by
    intro c hc
    rw [chunksOf_cons] at hc
    rcases List.mem_cons.mp hc with h | h
    · subst h
      constructor
      · simp
      · simp only [List.length_cons, List.length_take]
        omega
    · exact chunksOf_mem_length n hn (xs.drop (n - 1)) c h
termination_by l => l.length
decreasing_by
  simp only [List.length_drop, List.length_cons]
  omega

/-- Every chunk before the last has exactly `n` elements. -/
theorem chunksOf_dropLast_length (n : Nat) (hn : 0 < n) :
    ∀ l : List α, ∀ c ∈ (chunksOf n l).dropLast, c.length = n
  | [] => by simp [chunksOf_nil]
  | x :: xs => by
    intro c hc
    rw [chunksOf_cons] at hc
    rcases h : chunksOf n (xs.drop (n - 1)) with _ | ⟨d, ds⟩
    · rw [h] at hc
      simp at hc
    · rw [h, List.dropLast_cons_of_ne_nil (by simp)] at hc
      rcases List.mem_cons.mp hc with h1 | h1
      · subst h1
        have hne : xs.drop (n - 1) ≠ [] := by
          intro hnil
          rw [hnil, chunksOf_nil] at h
          exact List.noConfusion h
        have : n - 1 < xs.length := by
          by_contra hle
          exact hne (List.drop_eq_nil_of_le (by omega))
        simp only [List.length_cons, List.length_take]
        omega
      · have := chunksOf_dropLast_length n hn (xs.drop (n - 1)) c
        rw [h] at this
        exact this h1
termination_by l => l.length
decreasing_by
  simp only [List.length_drop, List.length_cons]
  omega

/-- The number of chunks is `⌈length / n⌉`. -/
theorem chunksOf_length (n : Nat) (hn : 0 < n) :
    ∀ l : List α, (chunksOf n l).length = (l.length + n - 1) / n
  | [] => by
    rw [chunksOf_nil]
    simp only [List.length_nil]
    rw [Nat.div_eq_of_lt (by omega)]
  | x :: xs => by
    rw [chunksOf_cons, List.length_cons,
      chunksOf_length n hn (xs.drop (n - 1))]
    simp only [List.length_drop, List.length_cons]
    rcases Nat.lt_or_ge xs.length (n - 1) with h | h
    · have h1 : xs.length - (n - 1) = 0 := by omega
      rw [h1]
      have h2 : (0 + n - 1) / n = 0 := Nat.div_eq_of_lt (by omega)
      have h3 : (xs.length + 1 + n - 1) / n = 1 :=
        Nat.div_eq_of_lt_le (by omega) (by omega)
      omega
    · have h1 : xs.length - (n - 1) + n - 1 = xs.length := by omega
      rw [h1]
      have h2 : xs.length + 1 + n - 1 = xs.length + n := by omega
      rw [h2, Nat.add_div_right _ hn]
termination_by l => l.length
decreasing_by
  simp only [List.length_drop, List.length_cons]
  omega

/-- The chunk lengths sum to the original length. -/
theorem chunksOf_sum_length (n : Nat) (hn : 0 < n) (l : List α) :
    ((chunksOf n l).map List.length).sum = l.length := by
  rw [← List.length_flatten, chunksOf_flatten n hn l]

/-- A CSV dataset file: a header line naming the columns, then data rows.
Counting the file's text lines (`sum(1 for _ in open(file_path))` in the
source) gives `rows.length + 1`. -/
structure CsvFile where
  header : List String
  rows : List Row
deriving DecidableEq, Repr

/-- Well-formed file: every data row has one cell per header column. -/
def CsvFile.WF (f : CsvFile) : Prop :=
  ∀ r ∈ f.rows, r.length = f.header.length

/-- The chunk sequence produced by `read_csv_chunked` (the generator body
is `for chunk in pd.read_csv(file_path, chunksize=self.chunk_size)`).
With at least one data row, pandas yields consecutive slices of
`chunk_size` rows.  On a file with a header and zero data rows the C
parser's first read hits end-of-input and returns a single **empty** frame
carrying the header's columns (`CParserWrapper.read` catches
`StopIteration` on its first chunk and builds empty meta-data), so exactly
one zero-row chunk is yielded. -/
def read_csv_chunked (f : CsvFile) (chunkSize : Nat) : List (List Row) :=
  if f.rows = [] then [[]] else chunksOf chunkSize f.rows

/-- Column `j`'s raw cells, read down the rows. -/
def colValues (rows : List Row) (j : Nat) : List Cell :=
  rows.map (fun r => r.getD j (Cell.str ""))

/-- pandas dtype inference for one column of a chunk: a nonempty column
whose cells are all integers becomes `int64`; anything else (including the
columns of an empty frame) gets dtype `object`. -/
def inferCol (vals : List Cell) : ColData :=
  if vals ≠ [] ∧ vals.all Cell.isInt then ColData.intC IntWidth.i64 (vals.map Cell.toInt)
  else ColData.obj false vals

/-- The DataFrame pandas builds from a slice of data rows: one column per
header entry, in header order, with per-chunk dtype inference. -/
def mkDf (header : List String) (rows : List Row) : DataFrame :=
  ⟨rows.length,
    (List.range header.length).map
      (fun j => ⟨header.getD j "", inferCol (colValues rows j)⟩)⟩

theorem Column.cells_inferCol (nm : String) (vals : List Cell) :
    Column.cells ⟨nm, inferCol vals⟩ = vals := by
  unfold inferCol
  split
  · next h =>
    simp only [Column.cells]
    induction vals with
    | nil => rfl
    | cons v vs ih =>
      simp only [List.all_cons, Bool.and_eq_true] at h
      have hv : Cell.int v.toInt = v := by
        cases v with
        | str s => simp [Cell.isInt] at h
        | int m => rfl
      simp only [List.map_cons, hv, List.cons.injEq, true_and]
      rcases vs with _ | ⟨w, ws⟩
      · rfl
      · exact ih ⟨by simp, h.2.2⟩
  · rfl

theorem mkDf_nrows (header : List String) (rows : List Row) :
    (mkDf header rows).nrows = rows.length := rfl

theorem mkDf_names (header : List String) (rows : List Row) :
    (mkDf header rows).cols.map Column.name = header := by
  apply List.ext_getElem
  · simp [mkDf]
  · intro i h1 h2
    simp [mkDf]
    rw [List.getElem?_eq_getElem h2]
    rfl

/-- In a well-formed chunk, reassembling row `i` from the columns gives
back the chunk's row `i`: the header-to-value mapping is preserved. -/
theorem mkDf_row (header : List String) (rows : List Row) (i : Nat)
    (hi : i < rows.length)
    (hwf : ∀ r ∈ rows, r.length = header.length) :
    (mkDf header rows).row i = rows[i] := by
  have hlen : rows[i].length = header.length :=
    hwf _ (List.getElem_mem hi)
  apply List.ext_getElem
  · simp [DataFrame.row, mkDf, hlen]
  · intro j h1 h2
    simp only [DataFrame.row, mkDf, List.getElem_map, List.getElem_range,
      Column.cells_inferCol, colValues]
    have : (rows.map (fun r => r.getD j (Cell.str ""))).getD i (Cell.str "")
        = rows[i].getD j (Cell.str "") := by
      rw [List.getD_eq_getElem?_getD, List.getElem?_map,
        List.getElem?_eq_getElem hi]
      rfl
    rw [this, List.getD_eq_getElem?_getD, List.getElem?_eq_getElem (by omega)]
    rfl

/-- `toRows` of the frame built from a well-formed slice of rows is that
slice itself. -/
theorem mkDf_toRows (header : List String) (rows : List Row)
    (hwf : ∀ r ∈ rows, r.length = header.length) :
    (mkDf header rows).toRows = rows := by
  apply List.ext_getElem
  · simp [DataFrame.toRows, mkDf]
  · intro i h1 h2
    simp only [DataFrame.toRows, List.getElem_map, List.getElem_range]
    exact mkDf_row header rows i h2 hwf

/-- Distinct-value count of a column (`Series.nunique()`). -/
def nuniqueCells (vals : List Cell) : Nat := vals.dedup.length

/-- `true` on a plain-text (`object`-dtype, not yet categorical) column:
the columns for which the source evaluates `nunique() / len(df)`. -/
def Column.isPlainObject : Column → Bool
  | ⟨_, ColData.obj false _⟩ => true
  | _ => false

/-- One iteration of the loop body of `optimize_dtypes` (source lines
98-108), for the column `col`:

* `object` columns: `df[col].nunique() / len(df) < 0.5` converts to
  `category`.  On a zero-row frame this is Python's `0 / 0`, a
  `ZeroDivisionError`.  For `len(df) > 0` the float comparison agrees with
  the exact rational one, which is `2 * nunique < len(df)` (both sides are
  integers well below 2^53, and `n / len == 0.5` is computed exactly when
  `len = 2 * n`).
* `int64` columns: the `min() >= lo and max() <= hi` ladder with the
  literal bounds from the source.  On an empty column pandas' `min`/`max`
  are NaN, every comparison is `False`, and the column is left unchanged —
  hence the nonempty/empty split below.
* all other dtypes (`category`, already-narrowed ints): untouched. -/
def optimizeCol (nrows : Nat) (c : Column) : Except String Column :=
  match c with
  | ⟨nm, ColData.obj false vals⟩ =>
    if nrows = 0 then Except.error "ZeroDivisionError: division by zero"
    else if 2 * nuniqueCells vals < nrows then
      Except.ok ⟨nm, ColData.obj true vals⟩
    else Except.ok ⟨nm, ColData.obj false vals⟩
  | ⟨nm, ColData.intC IntWidth.i64 (v :: vs)⟩ =>
    if -128 ≤ vs.foldl min v ∧ vs.foldl max v ≤ 127 then
      Except.ok ⟨nm, ColData.intC IntWidth.i8 (v :: vs)⟩
    else if -32768 ≤ vs.foldl min v ∧ vs.foldl max v ≤ 32767 then
      Except.ok ⟨nm, ColData.intC IntWidth.i16 (v :: vs)⟩
    else if -2147483648 ≤ vs.foldl min v ∧ vs.foldl max v ≤ 2147483647 then
      Except.ok ⟨nm, ColData.intC IntWidth.i32 (v :: vs)⟩
    else Except.ok ⟨nm, ColData.intC IntWidth.i64 (v :: vs)⟩
  | c => Except.ok c

/-- The `for col in df.columns` loop: columns are visited left to right
and the first raised exception escapes the function. -/
def optimizeCols (nrows : Nat) : List Column → Except String (List Column)
  | [] => Except.ok []
  | c :: cs =>
    match optimizeCol nrows c with
    | Except.error e => Except.error e
    | Except.ok c' =>
      match optimizeCols nrows cs with
      | Except.error e => Except.error e
      | Except.ok cs' => Except.ok (c' :: cs')

/-- `optimize_dtypes(df)`: per-column dtype narrowing (source lines
88-109).  The row count (the index) is untouched. -/
def optimize_dtypes (df : DataFrame) : Except String DataFrame :=
  match optimizeCols df.nrows df.cols with
  | Except.error e => Except.error e
  | Except.ok cols => Except.ok ⟨df.nrows, cols⟩

/-- A successfully optimized column keeps its name and its logical cells:
only the storage dtype changes. -/
theorem optimizeCol_preserves (nrows : Nat) (c c' : Column)
    (h : optimizeCol nrows c = Except.ok c') :
    c'.name = c.name ∧ c'.cells = c.cells := by
  rcases c with ⟨nm, ⟨cat, vals⟩ | ⟨w, vals⟩⟩
  · cases cat
    · simp only [optimizeCol] at h
      split at h
      · simp at h
      · split at h <;> (cases h; exact ⟨rfl, rfl⟩)
    · simp only [optimizeCol] at h
      cases h
      exact ⟨rfl, rfl⟩
  · cases w with
    | i64 =>
      rcases vals with _ | ⟨v, vs⟩
      · simp only [optimizeCol] at h
        cases h
        exact ⟨rfl, rfl⟩
      · simp only [optimizeCol] at h
        split at h
        · cases h; exact ⟨rfl, rfl⟩
        · split at h
          · cases h; exact ⟨rfl, rfl⟩
          · split at h <;> (cases h; exact ⟨rfl, rfl⟩)
    | i8 => simp only [optimizeCol] at h; cases h; exact ⟨rfl, rfl⟩
    | i16 => simp only [optimizeCol] at h; cases h; exact ⟨rfl, rfl⟩
    | i32 => simp only [optimizeCol] at h; cases h; exact ⟨rfl, rfl⟩

/-- On a frame with at least one row, every column optimizes without
error. -/
theorem optimizeCol_ok (nrows : Nat) (hn : nrows ≠ 0) (c : Column) :
    ∃ c', optimizeCol nrows c = Except.ok c' := by
  rcases c with ⟨nm, ⟨cat, vals⟩ | ⟨w, vals⟩⟩
  · cases cat
    · simp only [optimizeCol, if_neg hn]
      split <;> exact ⟨_, rfl⟩
    · exact ⟨_, rfl⟩
  · cases w with
    | i64 =>
      rcases vals with _ | ⟨v, vs⟩
      · exact ⟨_, rfl⟩
      · simp only [optimizeCol]
        split
        · exact ⟨_, rfl⟩
        · split
          · exact ⟨_, rfl⟩
          · split <;> exact ⟨_, rfl⟩
    | i8 => exact ⟨_, rfl⟩
    | i16 => exact ⟨_, rfl⟩
    | i32 => exact ⟨_, rfl⟩

/-- A zero-length column that is not plain `object` is left unchanged
(pandas' `min`/`max` of an empty series are NaN, so no narrowing branch
fires). -/
theorem optimizeCol_zero_id (c : Column)
    (hobj : c.isPlainObject = false)
    (hlen : c.cells.length = 0) :
    optimizeCol 0 c = Except.ok c := by
  rcases c with ⟨nm, ⟨cat, vals⟩ | ⟨w, vals⟩⟩
  · cases cat
    · simp [Column.isPlainObject] at hobj
    · rfl
  · simp only [Column.cells, List.length_map] at hlen
    rcases vals with _ | ⟨v, vs⟩
    · cases w <;> rfl
    · simp at hlen

theorem optimizeCols_forall₂ (nrows : Nat) :
    ∀ cs cs', optimizeCols nrows cs = Except.ok cs' →
      List.Forall₂ (fun c c' => optimizeCol nrows c = Except.ok c') cs cs'
  | [], cs' => by
    intro h
    simp only [optimizeCols] at h
    cases h
    exact List.Forall₂.nil
  | c :: cs, cs' => by
    intro h
    simp only [optimizeCols] at h
    split at h
    · simp at h
    · next c1 heq =>
      split at h
      · simp at h
      · next cs1 heq2 =>
        cases h
        exact List.Forall₂.cons heq (optimizeCols_forall₂ nrows cs cs1 heq2)

theorem optimizeCols_ok (nrows : Nat) (hn : nrows ≠ 0) :
    ∀ cs : List Column, ∃ cs', optimizeCols nrows cs = Except.ok cs'
  | [] => ⟨[], rfl⟩
  | c :: cs => by
    obtain ⟨c', hc⟩ := optimizeCol_ok nrows hn c
    obtain ⟨cs', hcs⟩ := optimizeCols_ok nrows hn cs
    exact ⟨c' :: cs', by simp only [optimizeCols, hc, hcs]⟩

/-- Success of `optimize_dtypes` on any frame with at least one row. -/
theorem optimize_dtypes_ok (df : DataFrame) (hn : df.nrows ≠ 0) :
    ∃ df', optimize_dtypes df = Except.ok df' := by
  obtain ⟨cs', h⟩ := optimizeCols_ok df.nrows hn df.cols
  exact ⟨⟨df.nrows, cs'⟩, by simp only [optimize_dtypes, h]⟩

theorem forall₂_map_cells (nrows : Nat) :
    ∀ cs cs' : List Column,
      List.Forall₂ (fun c c' => optimizeCol nrows c = Except.ok c') cs cs' →
      cs'.map Column.cells = cs.map Column.cells := by
  intro cs cs' hfa
  induction hfa with
  | nil => rfl
  | cons hc _ ih =>
    simp only [List.map_cons, ih, List.cons.injEq, and_true]
    exact (optimizeCol_preserves _ _ _ hc).2

/-- `optimize_dtypes` keeps the row count and the logical row contents:
only storage dtypes change. -/
theorem optimize_dtypes_preserves (df df' : DataFrame)
    (h : optimize_dtypes df = Except.ok df') :
    df'.nrows = df.nrows ∧ df'.toRows = df.toRows := by
  simp only [optimize_dtypes] at h
  split at h
  · simp at h
  · next cols' heq =>
    cases h
    refine ⟨rfl, ?_⟩
    have hcells : cols'.map Column.cells = df.cols.map Column.cells :=
      forall₂_map_cells df.nrows df.cols cols'
        (optimizeCols_forall₂ df.nrows df.cols cols' heq)
    simp only [DataFrame.toRows]
    apply List.map_congr_left
    intro i _
    simp only [DataFrame.row]
    have hsplit : ∀ (cols : List Column),
        cols.map (fun c => c.cells.getD i (Cell.str ""))
          = (cols.map Column.cells).map (fun vs => vs.getD i (Cell.str "")) := by
      intro cols
      rw [List.map_map]
      rfl
    rw [hsplit, hsplit, hcells]

theorem le_foldl_min (a v : Int) (l : List Int) :
    a ≤ l.foldl min v ↔ a ≤ v ∧ ∀ b ∈ l, a ≤ b := by
  induction l generalizing v with
  | nil => simp
  | cons x xs ih =>
    simp only [List.foldl_cons, ih, le_min_iff, List.mem_cons]
    constructor
    · rintro ⟨⟨h1, h2⟩, h3⟩
      exact ⟨h1, fun b hb => hb.elim (fun he => he ▸ h2) (h3 b)⟩
    · rintro ⟨h1, h2⟩
      exact ⟨⟨h1, h2 x (Or.inl rfl)⟩, fun b hb => h2 b (Or.inr hb)⟩

theorem foldl_max_le (a v : Int) (l : List Int) :
    l.foldl max v ≤ a ↔ v ≤ a ∧ ∀ b ∈ l, b ≤ a := by
  induction l generalizing v with
  | nil => simp
  | cons x xs ih =>
    simp only [List.foldl_cons, ih, max_le_iff, List.mem_cons]
    constructor
    · rintro ⟨⟨h1, h2⟩, h3⟩
      exact ⟨h1, fun b hb => hb.elim (fun he => he ▸ h2) (h3 b)⟩
    · rintro ⟨h1, h2⟩
      exact ⟨⟨h1, h2 x (Or.inl rfl)⟩, fun b hb => h2 b (Or.inr hb)⟩

/-- The `min() >= lo and max() <= hi` test of the source is exactly
"every value lies in `[lo, hi]`". -/
theorem foldl_min_max_iff (lo hi v : Int) (vs : List Int) :
    (lo ≤ vs.foldl min v ∧ vs.foldl max v ≤ hi)
      ↔ ∀ b ∈ v :: vs, lo ≤ b ∧ b ≤ hi := by
  rw [le_foldl_min, foldl_max_le]
  constructor
  · rintro ⟨⟨h1, h2⟩, h3, h4⟩ b hb
    rcases List.mem_cons.mp hb with he | hm
    · exact he ▸ ⟨h1, h3⟩
    · exact ⟨h2 b hm, h4 b hm⟩
  · intro h
    refine ⟨⟨(h v (by simp)).1, fun b hb => (h b (by simp [hb])).1⟩,
      (h v (by simp)).2, fun b hb => (h b (by simp [hb])).2⟩

/-- Result record of `analyze_sample`, restricted to the dataset-wide
estimates the claims are about (the per-column type/missing-value
reports are direct reads of the sample frame). -/
structure SampleAnalysis where
  sample_size : Nat
  estimated_total_rows : Nat
  estimated_memory_usage : ℚ
deriving DecidableEq, Repr

/-- `analyze_sample(file_path, sample_size)` (source lines 52-86).
`pd.read_csv(nrows=sample_size)` reads the first
`min(sample_size, R)` data rows.  The per-column in-memory footprint
(`memory_usage(deep=True) / 1024**2`) depends on pandas internals and is
abstracted as a parameter `mem` giving each sample column its footprint
in MB; the claims only concern how the footprints are combined.
`total_lines` is the full-file line count minus one for the header
(source line 77), i.e. the data-row count.  Source line 79 multiplies by
`total_lines / sample_size`, dividing by the **requested** argument, not
by the number of rows actually sampled; Python float division of these
quantities is exact rational arithmetic as far as the claims compare it
(and raises `ZeroDivisionError` for `sample_size = 0`, so the claims'
`sampleSize > 0` hypothesis matches the source's domain). -/
def analyze_sample (f : CsvFile) (sampleSize : Nat) (mem : Column → ℚ) :
    SampleAnalysis :=
  let sample_df := mkDf f.header (f.rows.take sampleSize)
  let total_lines : Nat := f.rows.length + 1 - 1
  { sample_size := sample_df.nrows
    estimated_total_rows := total_lines
    estimated_memory_usage :=
      (sample_df.cols.map mem).sum * ((total_lines : ℚ) / (sampleSize : ℚ)) }

/-- The relational store: table name → stored rows (`none` = no such
table). -/
def DB := String → Option (List Row)

def DB.update (db : DB) (t : String) (v : Option (List Row)) : DB :=
  fun s => if s = t then v else db s

/-- The `if_exists` argument of `DataFrame.to_sql` / `save_to_db_chunked`. -/
inductive IfExists
  | fail
  | replace
  | append
deriving DecidableEq, Repr

/-- pandas `DataFrame.to_sql(name, engine, if_exists=..., index=False)`:
`replace` drops any existing table and writes the frame's rows; `append`
adds them after any existing rows (creating the table if absent); `fail`
raises if the table already exists. -/
def to_sql (df : DataFrame) (tableName : String) (ifExists : IfExists)
    (db : DB) : Except String DB :=
  match ifExists with
  | IfExists.fail =>
    if (db tableName).isSome then Except.error "ValueError: table already exists"
    else Except.ok (db.update tableName (some df.toRows))
  | IfExists.replace => Except.ok (db.update tableName (some df.toRows))
  | IfExists.append =>
    Except.ok (db.update tableName (some (((db tableName).getD []) ++ df.toRows)))

/-- Observable outcome of a `save_to_db_chunked` call: the store
afterwards, the final value of the local `total_rows` counter (reported
in the success log message), the Python return value (the function body
has no `return` statement, so a successful call returns `None`), and the
exception logged and re-raised by the `except` clause, if any. -/
structure SaveResult where
  db : DB
  total_rows : Nat
  retVal : Option Nat
  err : Option String

/-- The `for chunk in self.read_csv_chunked(...)` loop of
`save_to_db_chunked` (source lines 125-142): optimize the chunk, write it
with `'replace' if first_chunk else 'append'` (line 133), add its length
to `total_rows`, clear `first_chunk`.  `writeOk k` models whether the
store accepts the `k`-th chunk's write (external failures such as a lost
connection); a refused write raises `WriteError` atomically, leaving the
store unchanged.  Any exception escapes the loop and is re-raised. -/
def saveLoop (tableName : String) (writeOk : Nat → Bool) :
    List DataFrame → Nat → Bool → Nat → DB → SaveResult
  | [], total, _, _, db => ⟨db, total, none, none⟩
  | chunk :: rest, total, firstChunk, k, db =>
    match optimize_dtypes chunk with
    | Except.error e => ⟨db, total, none, some e⟩
    | Except.ok chunk' =>
      if writeOk k then
        match to_sql chunk' tableName
            (if firstChunk then IfExists.replace else IfExists.append) db with
        | Except.error e => ⟨db, total, none, some e⟩
        | Except.ok db' =>
          saveLoop tableName writeOk rest (total + chunk'.nrows) false (k + 1) db'
      else ⟨db, total, none, some "WriteError"⟩

/-- `save_to_db_chunked(file_path, table_name, if_exists=...)` (source
lines 111-148).  The `if_exists` parameter is received but never
consulted: line 133 hardcodes `'replace' if first_chunk else 'append'`. -/
def save_to_db_chunked (f : CsvFile) (tableName : String)
    (ifExists : IfExists) (chunkSize : Nat) (writeOk : Nat → Bool)
    (db : DB) : SaveResult :=
  saveLoop tableName writeOk
    ((read_csv_chunked f chunkSize).map (mkDf f.header)) 0 true 0 db

/-- The chunk sequence of a load is never empty (a row-less file still
yields its single empty frame). -/
theorem read_csv_chunked_ne_nil (f : CsvFile) (n : Nat) :
    read_csv_chunked f n ≠ [] := by
  unfold read_csv_chunked
  split
  · simp
  · next h =>
    rcases hr : f.rows with _ | ⟨r, rs⟩
    · exact absurd hr h
    · rw [chunksOf_cons]
      simp

/-- The yielded chunk lengths sum to the file's data-row count. -/
theorem read_csv_chunked_sum_length (f : CsvFile) (n : Nat) (hn : 0 < n) :
    ((read_csv_chunked f n).map List.length).sum = f.rows.length := by
  unfold read_csv_chunked
  split
  · next h => simp [h]
  · exact chunksOf_sum_length n hn f.rows

theorem toRows_length (df : DataFrame) : df.toRows.length = df.nrows := by
  simp [DataFrame.toRows]

/-- The local `return` value of the loader is always `None`: no branch of
the source function returns anything. -/
theorem saveLoop_retVal (tableName : String) (writeOk : Nat → Bool) :
    ∀ (chunks : List DataFrame) (total : Nat) (first : Bool) (k : Nat) (db : DB),
      (saveLoop tableName writeOk chunks total first k db).retVal = none
  | [], total, first, k, db => rfl
  | chunk :: rest, total, first, k, db => by
    simp only [saveLoop]
    cases hopt : optimize_dtypes chunk with
    | error e => rfl
    | ok chunk' =>
      by_cases hw : writeOk k
      · simp only [if_pos hw]
        cases hsql : to_sql chunk' tableName
            (if first then IfExists.replace else IfExists.append) db with
        | error e => rfl
        | ok db' => exact saveLoop_retVal tableName writeOk rest _ false (k + 1) db'
      · simp only [if_neg hw]

/-- Append phase of the loop (`first_chunk` already cleared): a run that
finishes without error appends exactly the rows of the remaining chunks
after the table's current contents, and adds their row counts to
`total_rows`. -/
theorem saveLoop_append (tableName : String) (writeOk : Nat → Bool) :
    ∀ (chunks : List DataFrame) (total k : Nat) (db : DB) (rows0 : List Row),
      db tableName = some rows0 →
      (saveLoop tableName writeOk chunks total false k db).err = none →
      (saveLoop tableName writeOk chunks total false k db).db tableName
          = some (rows0 ++ (chunks.map DataFrame.toRows).flatten)
      ∧ (saveLoop tableName writeOk chunks total false k db).total_rows
          = total + (chunks.map DataFrame.nrows).sum
  | [], total, k, db, rows0 => by
    intro hdb hok
    simpa [saveLoop] using hdb
  | chunk :: rest, total, k, db, rows0 => by
    intro hdb hok
    cases hopt : optimize_dtypes chunk with
    | error e => simp [saveLoop, hopt] at hok
    | ok chunk' =>
      by_cases hw : writeOk k
      · have hpres := optimize_dtypes_preserves chunk chunk' hopt
        simp only [saveLoop, hopt, if_pos hw, to_sql, if_neg, Bool.false_eq_true,
          ite_false] at hok ⊢
        have hnew : (db.update tableName
            (some (((db tableName).getD []) ++ chunk'.toRows))) tableName
            = some (rows0 ++ chunk.toRows) := by
          simp [DB.update, hdb, hpres.2]
        obtain ⟨h1, h2⟩ := saveLoop_append tableName writeOk rest
          (total + chunk'.nrows) (k + 1) _ (rows0 ++ chunk.toRows) hnew hok
        constructor
        · rw [h1]
          simp [List.append_assoc]
        · rw [h2, hpres.1]
          simp [Nat.add_assoc]
      · simp [saveLoop, hopt, if_neg hw] at hok

/-- A completed `save_to_db_chunked` call has written, into the named
table, exactly the concatenated rows of all yielded chunks — whatever the
table held before — and its `total_rows` counter equals the file's
data-row count. -/
theorem save_ok_table (f : CsvFile) (tableName : String) (ie : IfExists)
    (chunkSize : Nat) (writeOk : Nat → Bool) (db : DB) (hn : 0 < chunkSize)
    (hok : (save_to_db_chunked f tableName ie chunkSize writeOk db).err = none) :
    (save_to_db_chunked f tableName ie chunkSize writeOk db).db tableName
        = some ((((read_csv_chunked f chunkSize).map (mkDf f.header)).map
            DataFrame.toRows).flatten)
    ∧ (save_to_db_chunked f tableName ie chunkSize writeOk db).total_rows
        = f.rows.length := by
  have hsum : (((read_csv_chunked f chunkSize).map (mkDf f.header)).map
      DataFrame.nrows).sum = f.rows.length := by
    rw [List.map_map]
    have : DataFrame.nrows ∘ mkDf f.header = List.length := by
      funext rows
      simp [mkDf]
    rw [this, read_csv_chunked_sum_length f chunkSize hn]
  rcases hcs : (read_csv_chunked f chunkSize).map (mkDf f.header) with _ | ⟨c0, cs⟩
  · exact absurd (List.map_eq_nil_iff.mp hcs) (read_csv_chunked_ne_nil f chunkSize)
  · unfold save_to_db_chunked at hok ⊢
    rw [hcs] at hok ⊢
    cases hopt : optimize_dtypes c0 with
    | error e => simp [saveLoop, hopt] at hok
    | ok c0' =>
      by_cases hw : writeOk 0
      · have hpres := optimize_dtypes_preserves c0 c0' hopt
        simp only [saveLoop, hopt, if_pos hw, to_sql, ite_true] at hok ⊢
        have hnew : (db.update tableName (some c0'.toRows)) tableName
            = some c0.toRows := by
          simp [DB.update, hpres.2]
        obtain ⟨h1, h2⟩ := saveLoop_append tableName writeOk cs
          (0 + c0'.nrows) 1 _ c0.toRows hnew hok
        rw [hcs] at hsum
        constructor
        · rw [h1]
          simp
        · rw [h2, hpres.1, ← hsum]
          simp [Nat.add_assoc]
      · simp [saveLoop, hopt, if_neg hw] at hok

/-- The row count `SELECT COUNT(*) FROM t` reports. -/
def countStar (db : DB) (t : String) : Nat := ((db t).getD []).length

/-- Result of `query_data`: a fully materialized frame or a lazy
sequence of row batches. -/
inductive QueryResult
  | full (rows : List Row)
  | batches (bs : List (List Row))
deriving DecidableEq, Repr

/-- `query_data(query, chunksize)` (source lines 150-168).  A read query
is modelled by its denotation `q` — the row sequence it returns on a
given store state; `pd.read_sql_query` without `chunksize` materializes
exactly those rows, and with `chunksize=n` streams the same rows in
consecutive slices of `n` (a server-side cursor drained by `fetchmany`).
Python's `if chunksize:` is falsy both for `None` and for `0`, so both
fall back to the materialized result. -/
def query_data (q : DB → List Row) (db : DB) (chunksize : Option Nat) :
    QueryResult :=
  match chunksize with
  | none => QueryResult.full (q db)
  | some n =>
    if n = 0 then QueryResult.full (q db)
    else QueryResult.batches (chunksOf n (q db))

theorem forall₂_getElem? {α β : Type} {R : α → β → Prop} :
    ∀ {as : List α} {bs : List β}, List.Forall₂ R as bs →
      ∀ (i : Nat) (a : α), as[i]? = some a → ∃ b, bs[i]? = some b ∧ R a b := by
  intro as bs h
  induction h with
  | nil =>
    intro i a ha
    simp at ha
  | cons hR hrest ih =>
    intro i a ha
    cases i with
    | zero =>
      simp only [List.getElem?_cons_zero, Option.some.injEq] at ha ⊢
      exact ⟨_, rfl, ha ▸ hR⟩
    | succ j =>
      simp only [List.getElem?_cons_succ] at ha ⊢
      exact ih j a ha

theorem range_mono {lo hi lo' hi' : Int} (h1 : lo' ≤ lo) (h2 : hi ≤ hi')
    (vals : List Int) (h : ∀ v ∈ vals, lo ≤ v ∧ v ≤ hi) :
    ∀ v ∈ vals, lo' ≤ v ∧ v ≤ hi' :=
  fun v hv => ⟨le_trans h1 (h v hv).1, le_trans (h v hv).2 h2⟩

/-- Total length of the rows written by a completed load. -/
theorem chunks_rows_length (f : CsvFile) (n : Nat) (hn : 0 < n) :
    ((((read_csv_chunked f n).map (mkDf f.header)).map
        DataFrame.toRows).flatten).length = f.rows.length := by
  rw [List.length_flatten, List.map_map, List.map_map]
  have hmap : (read_csv_chunked f n).map
        ((List.length ∘ DataFrame.toRows) ∘ mkDf f.header)
      = (read_csv_chunked f n).map List.length :=
    List.map_congr_left (fun c _ => by simp [Function.comp, toRows_length, mkDf])
  rw [hmap, read_csv_chunked_sum_length f n hn]

/-- Every chunk of a file with at least one data row is nonempty. -/
theorem read_csv_chunked_chunk_nonempty (f : CsvFile) (n : Nat) (hn : 0 < n)
    (hR : f.rows ≠ []) : ∀ c ∈ read_csv_chunked f n, c ≠ [] := by
  intro c hc
  unfold read_csv_chunked at hc
  rw [if_neg hR] at hc
  have h1 := (chunksOf_mem_length n hn f.rows c hc).1
  intro hnil
  rw [hnil] at h1
  simp at h1

/-- Failure phase of the loop: the first `m` remaining writes succeed,
write `m` (zero-based, counted from the loop position `k`) is refused;
`WriteError` escapes and the store keeps exactly the rows committed
before the failure. -/
theorem saveLoop_fail (tableName : String) (writeOk : Nat → Bool) :
    ∀ (m : Nat) (chunks : List DataFrame) (total k : Nat) (db : DB)
      (rows0 : List Row),
      db tableName = some rows0 →
      (∀ j, j < m → writeOk (k + j) = true) →
      writeOk (k + m) = false →
      m < chunks.length →
      (∀ c ∈ chunks, c.nrows ≠ 0) →
      (saveLoop tableName writeOk chunks total false k db).err
          = some "WriteError"
      ∧ (saveLoop tableName writeOk chunks total false k db).db tableName
          = some (rows0 ++ ((chunks.take m).map DataFrame.toRows).flatten) := by
  intro m
  induction m with
  | zero =>
    intro chunks total k db rows0 hdb hbef hfail hlt hnz
    rcases chunks with _ | ⟨c, cs⟩
    · simp at hlt
    · obtain ⟨c', hopt⟩ := optimize_dtypes_ok c (hnz c (by simp))
      have hw : writeOk k = false := by simpa using hfail
      simp [saveLoop, hopt, hw, hdb]
  | succ m ih =>
    intro chunks total k db rows0 hdb hbef hfail hlt hnz
    rcases chunks with _ | ⟨c, cs⟩
    · simp at hlt
    · obtain ⟨c', hopt⟩ := optimize_dtypes_ok c (hnz c (by simp))
      have hpres := optimize_dtypes_preserves c c' hopt
      have hw : writeOk k = true := by simpa using hbef 0 (by omega)
      have hnew : (db.update tableName
          (some (((db tableName).getD []) ++ c'.toRows))) tableName
          = some (rows0 ++ c.toRows) := by
        simp [DB.update, hdb, hpres.2]
      obtain ⟨h1, h2⟩ := ih cs (total + c'.nrows) (k + 1) _ (rows0 ++ c.toRows)
        hnew
        (fun j hj => by
          have harith : k + 1 + j = k + (j + 1) := by omega
          rw [harith]
          exact hbef (j + 1) (by omega))
        (by
          have harith : k + 1 + m = k + (m + 1) := by omega
          rw [harith]
          exact hfail)
        (by simpa using Nat.lt_of_succ_lt_succ hlt)
        (fun d hd => hnz d (by simp [hd]))
      constructor
      · simp only [saveLoop, hopt, if_pos hw, to_sql]
        simpa using h1
      · simp only [saveLoop, hopt, if_pos hw, to_sql]
        rw [show ((if false = true then IfExists.replace else IfExists.append))
          = IfExists.append by simp]
        simpa [hpres.2, List.append_assoc] using h2

/-- Concrete three-data-row file used by the witnesses below. -/
def file3 : CsvFile := ⟨["a"], [[Cell.int 1], [Cell.int 2], [Cell.int 3]]⟩

/-- An initially empty store. -/
def dbEmpty : DB := fun _ => none

/-- A store that accepts every write. -/
def allWritesOk : Nat → Bool := fun _ => true

/-- A store that refuses exactly the second (index 1) chunk write. -/
def failSecondWrite : Nat → Bool := fun j => decide (j ≠ 1)

theorem file3_WF : file3.WF := by
  intro r hr
  simp only [file3, List.mem_cons, List.not_mem_nil, or_false] at hr
  rcases hr with rfl | rfl | rfl <;> rfl

/-- C1: a completed `load` leaves the named table holding exactly the
file's `R` data rows, whatever the table held before: the persisted row
count equals the sum of the yielded chunk lengths, independent of the
chunk size, and `SELECT COUNT(*)` returns exactly `R`. -/
theorem load_completed_row_count (f : CsvFile) (tableName : String)
    (ie : IfExists) (chunkSize : Nat) (writeOk : Nat → Bool) (db : DB)
    (hn : 0 < chunkSize)
    (hok : (save_to_db_chunked f tableName ie chunkSize writeOk db).err = none) :
    ∃ rows,
      (save_to_db_chunked f tableName ie chunkSize writeOk db).db tableName
          = some rows
      ∧ rows.length = ((read_csv_chunked f chunkSize).map List.length).sum
      ∧ rows.length = f.rows.length
      ∧ countStar (save_to_db_chunked f tableName ie chunkSize writeOk db).db
          tableName = f.rows.length := by
  obtain ⟨h1, h2⟩ := save_ok_table f tableName ie chunkSize writeOk db hn hok
  have hlen := chunks_rows_length f chunkSize hn
  refine ⟨_, h1, ?_, hlen, ?_⟩
  · rw [hlen, read_csv_chunked_sum_length f chunkSize hn]
  · unfold countStar
    rw [h1, Option.getD_some]
    exact hlen

theorem load_completed_row_count_witness :
    0 < 2
    ∧ (save_to_db_chunked file3 "t" IfExists.replace 2 allWritesOk dbEmpty).err
        = none
    ∧ ∃ rows,
        (save_to_db_chunked file3 "t" IfExists.replace 2 allWritesOk
            dbEmpty).db "t" = some rows
        ∧ rows.length = ((read_csv_chunked file3 2).map List.length).sum
        ∧ rows.length = file3.rows.length
        ∧ countStar (save_to_db_chunked file3 "t" IfExists.replace 2
            allWritesOk dbEmpty).db "t" = file3.rows.length :=
  ⟨by decide, rfl,
    load_completed_row_count file3 "t" IfExists.replace 2 allWritesOk dbEmpty
      (by decide) rfl⟩

/-- C2 counterexample: a readable file with a header and zero data rows.
The claim predicts `⌈0/5⌉ = 0` chunks, but the reader yields one (empty)
chunk — pandas' C parser returns a single empty frame on the first read
of a row-less file. -/
theorem chunk_reader_zero_rows_counterexample :
    read_csv_chunked ⟨["a"], []⟩ 5 = [[]]
    ∧ ¬ ((read_csv_chunked ⟨["a"], []⟩ 5).length
        = ((⟨["a"], []⟩ : CsvFile).rows.length + 5 - 1) / 5) := by
  decide

/-- C2 (amended to files with at least one data row): the reader yields
`⌈R/N⌉` chunks; all but the last have exactly `N` rows, every chunk has
between 1 and `N` rows, the lengths sum to `R`, concatenation restores
the file's rows in order, and each chunk's frame keeps the header's
column order and header-to-value mapping. -/
theorem chunk_reader_chunks_spec (f : CsvFile) (n : Nat) (hn : 0 < n)
    (hR : f.rows ≠ []) (hwf : f.WF) :
    (read_csv_chunked f n).length = (f.rows.length + n - 1) / n
    ∧ (∀ c ∈ (read_csv_chunked f n).dropLast, c.length = n)
    ∧ (∀ c ∈ read_csv_chunked f n, 1 ≤ c.length ∧ c.length ≤ n)
    ∧ ((read_csv_chunked f n).map List.length).sum = f.rows.length
    ∧ (read_csv_chunked f n).flatten = f.rows
    ∧ (∀ c ∈ read_csv_chunked f n,
        (mkDf f.header c).cols.map Column.name = f.header
        ∧ (mkDf f.header c).toRows = c) := by
  have hrw : read_csv_chunked f n = chunksOf n f.rows := by
    unfold read_csv_chunked
    rw [if_neg hR]
  rw [hrw]
  refine ⟨chunksOf_length n hn f.rows, chunksOf_dropLast_length n hn f.rows,
    chunksOf_mem_length n hn f.rows, chunksOf_sum_length n hn f.rows,
    chunksOf_flatten n hn f.rows, ?_⟩
  intro c hc
  refine ⟨mkDf_names f.header c, mkDf_toRows f.header c ?_⟩
  intro r hr
  apply hwf
  rw [← chunksOf_flatten n hn f.rows]
  exact List.mem_flatten.mpr ⟨c, hc, hr⟩

theorem chunk_reader_chunks_spec_witness :
    (read_csv_chunked file3 2).length = (file3.rows.length + 2 - 1) / 2
    ∧ (∀ c ∈ (read_csv_chunked file3 2).dropLast, c.length = 2)
    ∧ (∀ c ∈ read_csv_chunked file3 2, 1 ≤ c.length ∧ c.length ≤ 2)
    ∧ ((read_csv_chunked file3 2).map List.length).sum = file3.rows.length
    ∧ (read_csv_chunked file3 2).flatten = file3.rows
    ∧ (∀ c ∈ read_csv_chunked file3 2,
        (mkDf file3.header c).cols.map Column.name = file3.header
        ∧ (mkDf file3.header c).toRows = c) :=
  chunk_reader_chunks_spec file3 2 (by decide) (by decide) file3_WF

/-- C3 counterexample: `sampleSize = 5` on a file with 2 data rows and a
single column of footprint 10 MB.  Actual sampled rows = 2, so the claim
predicts extrapolation factor `estimatedTotalRows / 2 = 1` and estimate
`10`; source line 79 divides by the requested 5, producing
`10 * (2/5) = 4`. -/
theorem sample_profiler_extrapolation_counterexample :
    (analyze_sample ⟨["a"], [[Cell.int 1], [Cell.int 2]]⟩ 5
        (fun _ => 10)).sample_size = 2
    ∧ (analyze_sample ⟨["a"], [[Cell.int 1], [Cell.int 2]]⟩ 5
        (fun _ => 10)).estimated_total_rows = 2
    ∧ (analyze_sample ⟨["a"], [[Cell.int 1], [Cell.int 2]]⟩ 5
        (fun _ => 10)).estimated_memory_usage = 4
    ∧ (analyze_sample ⟨["a"], [[Cell.int 1], [Cell.int 2]]⟩ 5
        (fun _ => 10)).estimated_memory_usage
      ≠ ((mkDf ["a"] (([[Cell.int 1], [Cell.int 2]] : List Row).take 5)).cols.map
            (fun _ => (10 : ℚ))).sum * ((2 : ℚ) / (2 : ℚ)) := by
  have hr1 : List.range 1 = [0] := rfl
  refine ⟨rfl, rfl, ?_, ?_⟩
  · norm_num [analyze_sample, mkDf, hr1]
  · norm_num [analyze_sample, mkDf, hr1]

/-- C3 (amended): `estimatedTotalRows` is the line count minus one, the
data-row count `R`; the reported `sample_size` is the actual number of
sampled rows `min sampleSize R`; the extrapolation factor divides by the
**requested** `sampleSize`.  This agrees with the claim's
`R / actualRows` whenever `sampleSize ≤ R`, and the factor is exactly 1
when `sampleSize = R`, but for `sampleSize > R` it is `R / sampleSize`,
below 1. -/
theorem sample_profiler_estimates (f : CsvFile) (sampleSize : Nat)
    (mem : Column → ℚ) (hn : 0 < sampleSize) :
    (analyze_sample f sampleSize mem).estimated_total_rows = f.rows.length
    ∧ (analyze_sample f sampleSize mem).sample_size
        = min sampleSize f.rows.length
    ∧ (analyze_sample f sampleSize mem).estimated_memory_usage
        = ((mkDf f.header (f.rows.take sampleSize)).cols.map mem).sum
          * ((f.rows.length : ℚ) / (sampleSize : ℚ))
    ∧ (sampleSize ≤ f.rows.length →
        (analyze_sample f sampleSize mem).estimated_memory_usage
          = ((mkDf f.header (f.rows.take sampleSize)).cols.map mem).sum
            * ((f.rows.length : ℚ)
              / ((analyze_sample f sampleSize mem).sample_size : ℚ)))
    ∧ (sampleSize = f.rows.length →
        (analyze_sample f sampleSize mem).estimated_memory_usage
          = ((mkDf f.header (f.rows.take sampleSize)).cols.map mem).sum) := by
  refine ⟨by simp [analyze_sample], ?_, by simp [analyze_sample], ?_, ?_⟩
  · simp [analyze_sample, mkDf, List.length_take]
  · intro hle
    have hss : (analyze_sample f sampleSize mem).sample_size = sampleSize := by
      simp [analyze_sample, mkDf, List.length_take, Nat.min_eq_left hle]
    rw [hss]
    simp [analyze_sample]
  · intro heq
    have hne : ((sampleSize : ℚ)) ≠ 0 := Nat.cast_ne_zero.mpr (by omega)
    simp only [analyze_sample, Nat.add_sub_cancel]
    rw [← heq, div_self hne, mul_one]

theorem sample_profiler_estimates_witness :
    0 < 1
    ∧ (analyze_sample ⟨["a"], [[Cell.int 1], [Cell.int 2]]⟩ 1
        (fun _ => 10)).estimated_total_rows
        = (⟨["a"], [[Cell.int 1], [Cell.int 2]]⟩ : CsvFile).rows.length
    ∧ (analyze_sample ⟨["a"], [[Cell.int 1], [Cell.int 2]]⟩ 1
        (fun _ => 10)).sample_size
        = min 1 (⟨["a"], [[Cell.int 1], [Cell.int 2]]⟩ : CsvFile).rows.length
    ∧ (analyze_sample ⟨["a"], [[Cell.int 1], [Cell.int 2]]⟩ 1
        (fun _ => 10)).estimated_memory_usage
        = ((mkDf ["a"] (([[Cell.int 1], [Cell.int 2]] : List Row).take 1)).cols.map
            (fun _ => (10 : ℚ))).sum
          * (((⟨["a"], [[Cell.int 1], [Cell.int 2]]⟩ : CsvFile).rows.length : ℚ)
            / ((1 : Nat) : ℚ))
    ∧ (1 ≤ (⟨["a"], [[Cell.int 1], [Cell.int 2]]⟩ : CsvFile).rows.length →
        (analyze_sample ⟨["a"], [[Cell.int 1], [Cell.int 2]]⟩ 1
            (fun _ => 10)).estimated_memory_usage
          = ((mkDf ["a"] (([[Cell.int 1], [Cell.int 2]] : List Row).take 1)).cols.map
              (fun _ => (10 : ℚ))).sum
            * (((⟨["a"], [[Cell.int 1], [Cell.int 2]]⟩ : CsvFile).rows.length : ℚ)
              / ((analyze_sample ⟨["a"], [[Cell.int 1], [Cell.int 2]]⟩ 1
                  (fun _ => 10)).sample_size : ℚ)))
    ∧ (1 = (⟨["a"], [[Cell.int 1], [Cell.int 2]]⟩ : CsvFile).rows.length →
        (analyze_sample ⟨["a"], [[Cell.int 1], [Cell.int 2]]⟩ 1
            (fun _ => 10)).estimated_memory_usage
          = ((mkDf ["a"] (([[Cell.int 1], [Cell.int 2]] : List Row).take 1)).cols.map
              (fun _ => (10 : ℚ))).sum) :=
  ⟨by decide,
    sample_profiler_estimates ⟨["a"], [[Cell.int 1], [Cell.int 2]]⟩ 1
      (fun _ => 10) (by decide)⟩

/-- C4: on a successfully optimized chunk, every nonempty `int64` column
is narrowed to 8 bits iff all its values fit the signed 8-bit range, to
16 bits iff they overflow 8 but fit 16, to 32 bits iff they overflow 16
but fit 32, stays 64-bit iff they overflow 32 — and the values are
unchanged, as is the column's name.  (Chunks produced by the reader give
their integer columns one value per data row, so a nonempty chunk never
carries an empty `int64` column.) -/
theorem optimizer_narrowing_iff (df df' : DataFrame)
    (h : optimize_dtypes df = Except.ok df')
    (i : Nat) (nm : String) (vals : List Int) (hv : vals ≠ [])
    (hc : df.cols[i]? = some ⟨nm, ColData.intC IntWidth.i64 vals⟩) :
    ∃ w, df'.cols[i]? = some ⟨nm, ColData.intC w vals⟩
      ∧ ((w = IntWidth.i8) ↔ ∀ v ∈ vals, -128 ≤ v ∧ v ≤ 127)
      ∧ ((w = IntWidth.i16) ↔
          ¬ (∀ v ∈ vals, -128 ≤ v ∧ v ≤ 127)
          ∧ ∀ v ∈ vals, -32768 ≤ v ∧ v ≤ 32767)
      ∧ ((w = IntWidth.i32) ↔
          ¬ (∀ v ∈ vals, -32768 ≤ v ∧ v ≤ 32767)
          ∧ ∀ v ∈ vals, -2147483648 ≤ v ∧ v ≤ 2147483647)
      ∧ ((w = IntWidth.i64) ↔
          ¬ (∀ v ∈ vals, -2147483648 ≤ v ∧ v ≤ 2147483647)) := by
  rcases vals with _ | ⟨v, vs⟩
  · exact absurd rfl hv
  simp only [optimize_dtypes] at h
  split at h
  · simp at h
  · next cols' heq =>
    cases h
    obtain ⟨b, hb, hR⟩ := forall₂_getElem?
      (optimizeCols_forall₂ df.nrows df.cols cols' heq) i _ hc
    simp only [optimizeCol] at hR
    by_cases h8 : -128 ≤ vs.foldl min v ∧ vs.foldl max v ≤ 127
    · rw [if_pos h8] at hR
      cases hR
      have hall8 := (foldl_min_max_iff _ _ v vs).mp h8
      refine ⟨IntWidth.i8, hb, ?_, ?_, ?_, ?_⟩
      · exact iff_of_true rfl hall8
      · exact iff_of_false (by decide) (fun hcon => hcon.1 hall8)
      · exact iff_of_false (by decide)
          (fun hcon => hcon.1 (range_mono (by norm_num) (by norm_num) _ hall8))
      · exact iff_of_false (by decide)
          (fun hcon => hcon (range_mono (by norm_num) (by norm_num) _ hall8))
    · rw [if_neg h8] at hR
      have hn8 : ¬ ∀ b ∈ v :: vs, -128 ≤ b ∧ b ≤ 127 := by
        rw [← foldl_min_max_iff]
        exact h8
      by_cases h16 : -32768 ≤ vs.foldl min v ∧ vs.foldl max v ≤ 32767
      · rw [if_pos h16] at hR
        cases hR
        have hall16 := (foldl_min_max_iff _ _ v vs).mp h16
        refine ⟨IntWidth.i16, hb, ?_, ?_, ?_, ?_⟩
        · exact iff_of_false (by decide) hn8
        · exact iff_of_true rfl ⟨hn8, hall16⟩
        · exact iff_of_false (by decide) (fun hcon => hcon.1 hall16)
        · exact iff_of_false (by decide)
            (fun hcon => hcon (range_mono (by norm_num) (by norm_num) _ hall16))
      · rw [if_neg h16] at hR
        have hn16 : ¬ ∀ b ∈ v :: vs, -32768 ≤ b ∧ b ≤ 32767 := by
          rw [← foldl_min_max_iff]
          exact h16
        by_cases h32 : -2147483648 ≤ vs.foldl min v
            ∧ vs.foldl max v ≤ 2147483647
        · rw [if_pos h32] at hR
          cases hR
          have hall32 := (foldl_min_max_iff _ _ v vs).mp h32
          refine ⟨IntWidth.i32, hb, ?_, ?_, ?_, ?_⟩
          · exact iff_of_false (by decide)
              (fun hcon => hn8 hcon)
          · exact iff_of_false (by decide) (fun hcon => hn16 hcon.2)
          · exact iff_of_true rfl ⟨hn16, hall32⟩
          · exact iff_of_false (by decide) (fun hcon => hcon hall32)
        · rw [if_neg h32] at hR
          cases hR
          have hn32 : ¬ ∀ b ∈ v :: vs, -2147483648 ≤ b ∧ b ≤ 2147483647 := by
            rw [← foldl_min_max_iff]
            exact h32
          refine ⟨IntWidth.i64, hb, ?_, ?_, ?_, ?_⟩
          · exact iff_of_false (by decide)
              (fun hcon => hn32 (range_mono (by norm_num) (by norm_num) _ hcon))
          · exact iff_of_false (by decide)
              (fun hcon => hn32 (range_mono (by norm_num) (by norm_num) _ hcon.2))
          · exact iff_of_false (by decide) (fun hcon => hn32 hcon.2)
          · exact iff_of_true rfl hn32

theorem optimizer_narrowing_iff_witness :
    (∃ w, (⟨2, [⟨"a", ColData.intC IntWidth.i8 [127, -128]⟩,
          ⟨"b", ColData.intC IntWidth.i16 [128, 0]⟩]⟩ : DataFrame).cols[0]?
        = some ⟨"a", ColData.intC w [127, -128]⟩
      ∧ ((w = IntWidth.i8) ↔ ∀ v ∈ [(127 : Int), -128], -128 ≤ v ∧ v ≤ 127)
      ∧ ((w = IntWidth.i16) ↔
          ¬ (∀ v ∈ [(127 : Int), -128], -128 ≤ v ∧ v ≤ 127)
          ∧ ∀ v ∈ [(127 : Int), -128], -32768 ≤ v ∧ v ≤ 32767)
      ∧ ((w = IntWidth.i32) ↔
          ¬ (∀ v ∈ [(127 : Int), -128], -32768 ≤ v ∧ v ≤ 32767)
          ∧ ∀ v ∈ [(127 : Int), -128], -2147483648 ≤ v ∧ v ≤ 2147483647)
      ∧ ((w = IntWidth.i64) ↔
          ¬ (∀ v ∈ [(127 : Int), -128], -2147483648 ≤ v ∧ v ≤ 2147483647)))
    ∧ (∃ w, (⟨2, [⟨"a", ColData.intC IntWidth.i8 [127, -128]⟩,
          ⟨"b", ColData.intC IntWidth.i16 [128, 0]⟩]⟩ : DataFrame).cols[1]?
        = some ⟨"b", ColData.intC w [128, 0]⟩
      ∧ ((w = IntWidth.i8) ↔ ∀ v ∈ [(128 : Int), 0], -128 ≤ v ∧ v ≤ 127)
      ∧ ((w = IntWidth.i16) ↔
          ¬ (∀ v ∈ [(128 : Int), 0], -128 ≤ v ∧ v ≤ 127)
          ∧ ∀ v ∈ [(128 : Int), 0], -32768 ≤ v ∧ v ≤ 32767)
      ∧ ((w = IntWidth.i32) ↔
          ¬ (∀ v ∈ [(128 : Int), 0], -32768 ≤ v ∧ v ≤ 32767)
          ∧ ∀ v ∈ [(128 : Int), 0], -2147483648 ≤ v ∧ v ≤ 2147483647)
      ∧ ((w = IntWidth.i64) ↔
          ¬ (∀ v ∈ [(128 : Int), 0], -2147483648 ≤ v ∧ v ≤ 2147483647))) :=
  ⟨optimizer_narrowing_iff
      ⟨2, [⟨"a", ColData.intC IntWidth.i64 [127, -128]⟩,
        ⟨"b", ColData.intC IntWidth.i64 [128, 0]⟩]⟩
      ⟨2, [⟨"a", ColData.intC IntWidth.i8 [127, -128]⟩,
        ⟨"b", ColData.intC IntWidth.i16 [128, 0]⟩]⟩
      rfl 0 "a" [127, -128] (by decide) rfl,
    optimizer_narrowing_iff
      ⟨2, [⟨"a", ColData.intC IntWidth.i64 [127, -128]⟩,
        ⟨"b", ColData.intC IntWidth.i64 [128, 0]⟩]⟩
      ⟨2, [⟨"a", ColData.intC IntWidth.i8 [127, -128]⟩,
        ⟨"b", ColData.intC IntWidth.i16 [128, 0]⟩]⟩
      rfl 1 "b" [128, 0] (by decide) rfl⟩

/-- C6 counterexample: the zero-row chunk that the reader yields for a
header-only file carries an `object` column, and `optimize_dtypes` then
evaluates `nunique() / len(df)` with `len(df) = 0`: a
`ZeroDivisionError`, not a no-op. -/
theorem optimizer_zero_row_counterexample :
    optimize_dtypes (mkDf ["a"] [])
      = Except.error "ZeroDivisionError: division by zero" := rfl

theorem optimizeCols_zero_id :
    ∀ cs : List Column,
      (∀ c ∈ cs, c.isPlainObject = false) →
      (∀ c ∈ cs, c.cells.length = 0) →
      optimizeCols 0 cs = Except.ok cs
  | [] => fun _ _ => rfl
  | c :: cs => fun hobj hlen => by
    have h1 : optimizeCol 0 c = Except.ok c :=
      optimizeCol_zero_id c (hobj c (by simp)) (hlen c (by simp))
    have h2 := optimizeCols_zero_id cs (fun d hd => hobj d (by simp [hd]))
      (fun d hd => hlen d (by simp [hd]))
    simp [optimizeCols, h1, h2]

/-- C6 (amended): `optimize_dtypes` succeeds on every chunk with at
least one row; a zero-row chunk is a no-op only when it has no plain
`object` column — with one, `nunique()/len(df)` raises
`ZeroDivisionError`. -/
theorem optimizer_totality (df : DataFrame) :
    (df.nrows ≠ 0 → ∃ df', optimize_dtypes df = Except.ok df')
    ∧ (df.WF → df.nrows = 0 →
        (∀ c ∈ df.cols, c.isPlainObject = false) →
        optimize_dtypes df = Except.ok df) := by
  constructor
  · exact optimize_dtypes_ok df
  · intro hwf h0 hcols
    have hcs : optimizeCols df.nrows df.cols = Except.ok df.cols := by
      rw [h0]
      exact optimizeCols_zero_id df.cols hcols
        (fun c hc => by rw [hwf c hc, h0])
    simp [optimize_dtypes, hcs]

theorem optimizer_totality_witness :
    (∃ df', optimize_dtypes
        (⟨1, [⟨"a", ColData.obj false [Cell.str "x"]⟩]⟩ : DataFrame)
        = Except.ok df')
    ∧ optimize_dtypes (⟨0, [⟨"n", ColData.intC IntWidth.i64 []⟩]⟩ : DataFrame)
        = Except.ok ⟨0, [⟨"n", ColData.intC IntWidth.i64 []⟩]⟩ :=
  ⟨(optimizer_totality ⟨1, [⟨"a", ColData.obj false [Cell.str "x"]⟩]⟩).1
      (by decide),
    (optimizer_totality ⟨0, [⟨"n", ColData.intC IntWidth.i64 []⟩]⟩).2
      (by intro c hc; fin_cases hc <;> rfl) rfl (by decide)⟩

/-- C5 counterexample: the loader's Python return value is `None` (the
function body has no `return` statement), not the 3 rows it wrote and
logged.  Claimed: the call returns the total row count written. -/
theorem loader_return_value_counterexample :
    (save_to_db_chunked file3 "t" IfExists.replace 2 allWritesOk
        dbEmpty).total_rows = 3
    ∧ (save_to_db_chunked file3 "t" IfExists.replace 2 allWritesOk
        dbEmpty).retVal = none
    ∧ (save_to_db_chunked file3 "t" IfExists.replace 2 allWritesOk
        dbEmpty).retVal ≠ some 3 := by
  decide

/-- C5 (amended): a completed load *computes and logs* the total row
count written — its `total_rows` counter ends at the file's data-row
count — but *returns* `None`. -/
theorem loader_total_rows_logged (f : CsvFile) (tableName : String)
    (ie : IfExists) (chunkSize : Nat) (writeOk : Nat → Bool) (db : DB)
    (hn : 0 < chunkSize)
    (hok : (save_to_db_chunked f tableName ie chunkSize writeOk db).err = none) :
    (save_to_db_chunked f tableName ie chunkSize writeOk db).total_rows
        = f.rows.length
    ∧ (save_to_db_chunked f tableName ie chunkSize writeOk db).retVal = none :=
  ⟨(save_ok_table f tableName ie chunkSize writeOk db hn hok).2,
    saveLoop_retVal tableName writeOk _ 0 true 0 db⟩

theorem loader_total_rows_logged_witness :
    0 < 1
    ∧ (save_to_db_chunked file3 "u" IfExists.append 1 allWritesOk dbEmpty).err
        = none
    ∧ (save_to_db_chunked file3 "u" IfExists.append 1 allWritesOk
        dbEmpty).total_rows = file3.rows.length
    ∧ (save_to_db_chunked file3 "u" IfExists.append 1 allWritesOk
        dbEmpty).retVal = none :=
  ⟨by decide, rfl,
    loader_total_rows_logged file3 "u" IfExists.append 1 allWritesOk dbEmpty
      (by decide) rfl⟩

/-- C7: if the write of chunk `kFail` (zero-based; `kFail ≥ 1`, so at
least one chunk is already committed) is refused, the load raises
`WriteError` to the caller — never swallowed or retried — and the table
keeps exactly the rows of the chunks written before the failure, with no
rollback. -/
theorem load_write_failure_propagation (f : CsvFile) (tableName : String)
    (ie : IfExists) (chunkSize : Nat) (writeOk : Nat → Bool) (db : DB)
    (kFail : Nat) (hn : 0 < chunkSize) (hR : f.rows ≠ [])
    (h1 : 1 ≤ kFail) (hk : kFail < (read_csv_chunked f chunkSize).length)
    (hbefore : ∀ j, j < kFail → writeOk j = true)
    (hfail : writeOk kFail = false) :
    (save_to_db_chunked f tableName ie chunkSize writeOk db).err
        = some "WriteError"
    ∧ (save_to_db_chunked f tableName ie chunkSize writeOk db).db tableName
        = some ((((read_csv_chunked f chunkSize).take kFail).map
            (fun c => (mkDf f.header c).toRows)).flatten) := by
  obtain ⟨k', rfl⟩ : ∃ k', kFail = k' + 1 := ⟨kFail - 1, by omega⟩
  have hnonempty : ∀ c ∈ read_csv_chunked f chunkSize, c ≠ [] :=
    read_csv_chunked_chunk_nonempty f chunkSize hn hR
  rcases hcs : read_csv_chunked f chunkSize with _ | ⟨c0, cs⟩
  · exact absurd hcs (read_csv_chunked_ne_nil f chunkSize)
  · unfold save_to_db_chunked
    rw [hcs]
    simp only [List.map_cons]
    have hnz0 : (mkDf f.header c0).nrows ≠ 0 := by
      rw [mkDf_nrows, Ne, List.length_eq_zero]
      exact hnonempty c0 (by rw [hcs]; simp)
    obtain ⟨c0', hopt⟩ := optimize_dtypes_ok _ hnz0
    have hpres := optimize_dtypes_preserves _ c0' hopt
    have hw0 : writeOk 0 = true := hbefore 0 (by omega)
    have hnew : (db.update tableName (some c0'.toRows)) tableName
        = some (mkDf f.header c0).toRows := by
      simp [DB.update, hpres.2]
    obtain ⟨he, hdb⟩ := saveLoop_fail tableName writeOk k'
      (cs.map (mkDf f.header)) (0 + c0'.nrows) 1 _
      ((mkDf f.header c0).toRows) hnew
      (fun j hj => by
        have harith : 1 + j = j + 1 := by omega
        rw [harith]
        exact hbefore (j + 1) (by omega))
      (by
        have harith : 1 + k' = k' + 1 := by omega
        rw [harith]
        exact hfail)
      (by
        rw [hcs] at hk
        simp only [List.length_cons] at hk
        simp only [List.length_map]
        omega)
      (fun d hd => by
        obtain ⟨c, hc, rfl⟩ := List.mem_map.mp hd
        rw [mkDf_nrows, Ne, List.length_eq_zero]
        exact hnonempty c (by rw [hcs]; simp [hc]))
    constructor
    · simp only [saveLoop, hopt, if_pos hw0, to_sql, ite_true]
      exact he
    · simp only [saveLoop, hopt, if_pos hw0, to_sql, ite_true]
      rw [hdb]
      simp only [List.take_succ_cons, List.map_cons, List.flatten_cons,
        List.map_take, List.map_map]
      rfl

theorem load_write_failure_propagation_witness :
    (save_to_db_chunked file3 "t" IfExists.replace 1 failSecondWrite
        dbEmpty).err = some "WriteError"
    ∧ (save_to_db_chunked file3 "t" IfExists.replace 1 failSecondWrite
        dbEmpty).db "t"
        = some ((((read_csv_chunked file3 1).take 1).map
            (fun c => (mkDf file3.header c).toRows)).flatten) :=
  load_write_failure_propagation file3 "t" IfExists.replace 1 failSecondWrite
    dbEmpty 1 (by decide) (by decide) (by decide) (by decide)
    (fun j hj => by
      have hz : j = 0 := by omega
      subst hz
      rfl)
    (by decide)

/-- C8: paged `query_data` returns batches of at most `pageSize` rows
whose in-order concatenation is exactly the unpaged result on the same
store state. -/
theorem query_paging_refinement (q : DB → List Row) (db : DB) (n : Nat)
    (hn : 0 < n) :
    ∃ bs, query_data q db (some n) = QueryResult.batches bs
      ∧ query_data q db none = QueryResult.full bs.flatten
      ∧ ∀ b ∈ bs, b.length ≤ n := by
  refine ⟨chunksOf n (q db), ?_, ?_, ?_⟩
  · simp [query_data, Nat.pos_iff_ne_zero.mp hn]
  · simp [query_data, chunksOf_flatten n hn]
  · intro b hb
    exact (chunksOf_mem_length n hn _ b hb).2

theorem query_paging_refinement_witness :
    0 < 2
    ∧ ∃ bs,
      query_data (fun _ => [[Cell.int 1], [Cell.int 2], [Cell.int 3]]) dbEmpty
          (some 2) = QueryResult.batches bs
      ∧ query_data (fun _ => [[Cell.int 1], [Cell.int 2], [Cell.int 3]]) dbEmpty
          none = QueryResult.full bs.flatten
      ∧ ∀ b ∈ bs, b.length ≤ 2 :=
  ⟨by decide,
    query_paging_refinement (fun _ => [[Cell.int 1], [Cell.int 2], [Cell.int 3]])
      dbEmpty 2 (by decide)⟩

/-- C10: the `if_exists` argument of `save_to_db_chunked` has no effect
on anything observable — line 133 hardcodes `'replace'` for the first
chunk and `'append'` for the rest, never consulting the parameter — so
any two runs differing only in it produce identical results (store,
counter, return value and error alike). -/
theorem if_exists_ignored (f : CsvFile) (tableName : String)
    (ie₁ ie₂ : IfExists) (chunkSize : Nat) (writeOk : Nat → Bool) (db : DB) :
    save_to_db_chunked f tableName ie₁ chunkSize writeOk db
      = save_to_db_chunked f tableName ie₂ chunkSize writeOk db := rfl

end DataAnalyzer
